import Mathlib

set_option autoImplicit false

namespace Dnsr

/-!
Shallow embedding of the dnsr authoritative DNS server.

Domain names on the wire are modelled as label lists (most specific label
first, the root label implicit); configuration-level DomainName and KeyFile
values are strings, as in src/key.rs.  HashMaps are modelled as association
lists in insertion order.
-/

/-- DNS response codes used by the server (subset of the iana registry). -/
inductive Rcode
  | noerror | nxdomain | servfail | refused | notauth
  deriving DecidableEq, Repr

/-- Record types appearing in the program. -/
inductive Rtype
  | soa | txt | a | axfr
  deriving DecidableEq, Repr

/-- DNS classes appearing in the program. -/
inductive DClass
  | cIN | ch | cNONE | cANY
  deriving DecidableEq, Repr

/-- DNS opcodes as far as the program distinguishes them. -/
inductive Opcode
  | query | update | other
  deriving DecidableEq, Repr

/-- A wire-format domain name: list of labels, most specific first. -/
abbrev DnsName := List String

/-- Dotted display of a name without a trailing dot, as produced by the
domain crate's Display impl and consumed by DomainName::from in
src/key.rs (impl From of Name for DomainName). -/
def displayName : DnsName → String
  | [] => ""
  | [l] => l
  | l :: rest => l ++ "." ++ displayName rest

/-- Record data for the variants the program manipulates (TXT additions,
the SOA seeded at zone creation, and one non-TXT stand-in). -/
inductive RData
  | soa (mname rname : String) (serial refresh retry expire minimum : Nat)
  | txt (s : String)
  | addr (v : Nat)
  deriving DecidableEq, Repr

/-- An RRset as in domain::zonetree: record type, ttl and the data list. -/
structure Rrset where
  rtype : Rtype
  ttl : Nat
  rdata : List RData
  deriving DecidableEq, Repr

/-- A zone: apex name, class, and its contents as (owner, rrset) pairs. -/
structure Zone where
  apex : DnsName
  cls : DClass
  records : List (DnsName × Rrset)
  deriving DecidableEq, Repr

section AssocList

variable {α β : Type} [DecidableEq α]

/-- First value bound to a key in an association list (HashMap::get). -/
def alookup (k : α) : List (α × β) → Option β
  | [] => none
  | p :: rest => if p.1 = k then some p.2 else alookup k rest

/-- HashMap::insert: replaces the first binding of the key and returns the
previous value; appends at the end when the key is absent. -/
def ainsert (k : α) (v : β) : List (α × β) → List (α × β) × Option β
  | [] => ([(k, v)], none)
  | p :: rest =>
    if p.1 = k then ((k, v) :: rest, some p.2)
    else
      let r := ainsert k v rest
      (p :: r.1, r.2)

/-- HashMap::remove: drops the first binding of the key, returning it. -/
def aremove (k : α) : List (α × β) → List (α × β) × Option β
  | [] => ([], none)
  | p :: rest =>
    if p.1 = k then (rest, some p.2)
    else
      let r := aremove k rest
      (p :: r.1, r.2)

theorem alookup_mem {k : α} {v : β} :
    ∀ {t : List (α × β)}, alookup k t = some v → (k, v) ∈ t := by
  intro t
  induction t with
  | nil => intro h; simp [alookup] at h
  | cons p rest ih =>
    intro h
    rw [alookup] at h
    by_cases hp : p.1 = k
    · rw [if_pos hp] at h
      obtain ⟨p1, p2⟩ := p
      obtain rfl : p1 = k := hp
      obtain rfl : p2 = v := Option.some.inj h
      exact List.mem_cons_self _ _
    · rw [if_neg hp] at h
      exact List.mem_cons_of_mem _ (ih h)

theorem alookup_eq_none_iff {k : α} :
    ∀ {t : List (α × β)}, alookup k t = none ↔ ∀ v, (k, v) ∉ t := by
  intro t
  induction t with
  | nil => simp [alookup]
  | cons p rest ih =>
    by_cases hp : p.1 = k
    · simp only [alookup, hp, if_pos]
      constructor
      · intro h; cases h
      · intro h
        exfalso
        exact h p.2 (by cases p; simp_all)
    · simp only [alookup, hp, if_neg, not_false_iff]
      rw [ih]
      constructor
      · intro h v hv
        rcases List.mem_cons.mp hv with h1 | h2
        · exact hp (by cases p; cases h1; rfl)
        · exact h v h2
      · intro h v hv
        exact h v (List.mem_cons_of_mem _ hv)

theorem ainsert_snd (k : α) (v : β) :
    ∀ t : List (α × β), (ainsert k v t).2 = alookup k t := by
  intro t
  induction t with
  | nil => rfl
  | cons p rest ih =>
    by_cases hp : p.1 = k
    · simp [ainsert, alookup, hp]
    · simp [ainsert, alookup, hp, ih]

theorem ainsert_of_none (k : α) (v : β) :
    ∀ t : List (α × β), alookup k t = none → (ainsert k v t).1 = t ++ [(k, v)] := by
  intro t
  induction t with
  | nil => intro _; rfl
  | cons p rest ih =>
    intro h
    by_cases hp : p.1 = k
    · simp [alookup, hp] at h
    · simp [alookup, hp] at h
      simp [ainsert, hp, ih h]

theorem alookup_ainsert_self (k : α) (v : β) :
    ∀ t : List (α × β), alookup k (ainsert k v t).1 = some v := by
  intro t
  induction t with
  | nil => simp [ainsert, alookup]
  | cons p rest ih =>
    by_cases hp : p.1 = k
    · simp [ainsert, alookup, hp]
    · simp [ainsert, alookup, hp, ih]

theorem alookup_ainsert_other (k q : α) (v : β) (hq : q ≠ k) :
    ∀ t : List (α × β), alookup q (ainsert k v t).1 = alookup q t := by
  have hkq : ¬(k = q) := fun h => hq h.symm
  intro t
  induction t with
  | nil => simp [ainsert, alookup, hkq]
  | cons p rest ih =>
    by_cases hp : p.1 = k
    · simp [ainsert, alookup, hp, hkq]
    · simp [ainsert, alookup, hp, ih]

end AssocList

/-- Error variants of zone-tree modification (domain crate's
ZoneTreeModificationError as re-raised by src/zone.rs). -/
inductive ZoneErr
  | zoneExists | zoneDoesNotExist
  deriving DecidableEq, Repr

/-- The zone tree of src/zone.rs: HashMap from apex name to zone. -/
abbrev ZoneTree := List (DnsName × Zone)

/-- ZoneTree::find_zone (src/zone.rs lines 23-28): a plain HashMap::get
on the queried name. -/
def findZone (t : ZoneTree) (qname : DnsName) : Option Zone :=
  alookup qname t

/-- ZoneTree::insert_zone (src/zone.rs lines 30-35): HashMap::insert keyed
by the apex, then Err(ZoneExists) when a previous binding existed. -/
def insertZone (t : ZoneTree) (z : Zone) : ZoneTree × Except ZoneErr Unit :=
  ((ainsert z.apex z t).1,
    match (ainsert z.apex z t).2 with
    | none => Except.ok ()
    | some _ => Except.error ZoneErr.zoneExists)

/-- ZoneTree::remove_zone (src/zone.rs lines 37-47). -/
def removeZone (t : ZoneTree) (n : DnsName) : ZoneTree × Except ZoneErr Unit :=
  ((aremove n t).1,
    match (aremove n t).2 with
    | none => Except.error ZoneErr.zoneDoesNotExist
    | some _ => Except.ok ())

/-- Zones::has_zone (src/service/mod.rs lines 316-326): false unless the
class is IN, else presence in the tree. -/
def hasZone (t : ZoneTree) (q : DnsName) (c : DClass) : Bool :=
  if c ≠ DClass.cIN then false else (findZone t q).isSome

/-- Zones::insert_zone (src/service/mod.rs lines 328-337): returns Ok
without touching the tree when has_zone already holds, otherwise defers
to ZoneTree::insert_zone under the write lock. -/
def zonesInsert (t : ZoneTree) (z : Zone) : ZoneTree × Except ZoneErr Unit :=
  if hasZone t z.apex z.cls then (t, Except.ok ()) else insertZone t z

/-- Zones::remove_zone (src/service/mod.rs lines 339-358). -/
def zonesRemove (t : ZoneTree) (n : DnsName) : ZoneTree × Except ZoneErr Unit :=
  removeZone t n

/-- Longest-suffix zone lookup, written from the words of the spec
(section 4.1: find(qname) is a longest-suffix match); stated only to be
compared against ZoneTree::find_zone, which the source implements as an
exact HashMap lookup. -/
def findZoneSuffixSpec (t : ZoneTree) (q : DnsName) : Option Zone :=
  (t.filter (fun p => decide (p.1 <:+ q))).foldl
    (fun best p =>
      match best with
      | none => some p.2
      | some b => if b.apex.length < p.1.length then some p.2 else best)
    none

/-- An empty example zone with apex example.com. -/
def zoneEC : Zone := ⟨["example", "com"], DClass.cIN, []⟩

/-- A second zone at the same apex, holding one TXT rrset. -/
def zoneEC2 : Zone :=
  ⟨["example", "com"], DClass.cIN,
    [(["example", "com"], ⟨Rtype.txt, 60, [RData.txt "x"]⟩)]⟩

/-- C9 counterexample: with the zone for example.com stored, find_zone on
www.example.com returns none even though the stored apex is a (longest)
suffix of the qname, contradicting the claimed longest-suffix semantics. -/
theorem C9_counterexample :
    findZone [(["example", "com"], zoneEC)] ["www", "example", "com"] = none ∧
    (["example", "com"] : DnsName) <:+ ["www", "example", "com"] ∧
    findZoneSuffixSpec [(["example", "com"], zoneEC)] ["www", "example", "com"]
      = some zoneEC := by
  exact ⟨rfl, ⟨["www"], rfl⟩, rfl⟩

/-- C9 amended: ZoneTree::find_zone is an exact HashMap lookup on the
qname: any zone it returns is stored under exactly that name, and it
returns none exactly when no stored apex equals the qname. -/
theorem C9_find_zone_exact (t : ZoneTree) (q : DnsName) :
    (∀ z, findZone t q = some z → (q, z) ∈ t) ∧
    (findZone t q = none ↔ ∀ z, (q, z) ∉ t) :=
  ⟨fun _ h => alookup_mem h, alookup_eq_none_iff⟩

/-- Witness for C9_find_zone_exact at concrete inputs. -/
theorem C9_find_zone_exact_witness :
    ((["example", "com"] : DnsName), zoneEC) ∈ [(["example", "com"], zoneEC)] ∧
    ∀ z, ((["example", "com"] : DnsName), z) ∉ ([] : ZoneTree) :=
  ⟨(C9_find_zone_exact [(["example", "com"], zoneEC)] ["example", "com"]).1 zoneEC rfl,
   (C9_find_zone_exact [] ["example", "com"]).2.mp rfl⟩

/-- C6 counterexample: inserting a second zone under an existing apex does
return Err(ZoneExists), but the tree is changed: the new zone has replaced
the previously stored one. -/
theorem C6_counterexample :
    (insertZone [(["example", "com"], zoneEC)] zoneEC2).2
        = Except.error ZoneErr.zoneExists ∧
    findZone (insertZone [(["example", "com"], zoneEC)] zoneEC2).1
        ["example", "com"] = some zoneEC2 ∧
    zoneEC2 ≠ zoneEC := by
  refine ⟨rfl, rfl, by decide⟩

/-- C6 amended: on a fresh apex ZoneTree::insert_zone returns Ok and
appends exactly the one new mapping; on an apex collision it returns
Err(ZoneExists) yet the new zone overwrites the stored one in place,
leaving every other apex untouched. -/
theorem C6_insert_zone (t : ZoneTree) (z : Zone) :
    (findZone t z.apex = none →
      insertZone t z = (t ++ [(z.apex, z)], Except.ok ())) ∧
    (∀ w, findZone t z.apex = some w →
      (insertZone t z).2 = Except.error ZoneErr.zoneExists ∧
      findZone (insertZone t z).1 z.apex = some z ∧
      ∀ q, q ≠ z.apex → findZone (insertZone t z).1 q = findZone t q) := by
  constructor
  · intro h
    unfold findZone at h
    unfold insertZone
    rw [ainsert_snd z.apex z t, h, ainsert_of_none z.apex z t h]
  · intro w h
    unfold findZone at h
    unfold insertZone
    rw [ainsert_snd z.apex z t, h]
    refine ⟨rfl, ?_, ?_⟩
    · show alookup z.apex (ainsert z.apex z t).1 = some z
      exact alookup_ainsert_self z.apex z t
    · intro q hq
      show alookup q (ainsert z.apex z t).1 = alookup q t
      exact alookup_ainsert_other z.apex q z hq t

/-- Witness for C6_insert_zone at concrete inputs. -/
theorem C6_insert_zone_witness :
    insertZone [] zoneEC = ([(["example", "com"], zoneEC)], Except.ok ()) ∧
    (insertZone [(["example", "com"], zoneEC)] zoneEC2).2
      = Except.error ZoneErr.zoneExists := by
  refine ⟨?_, ?_⟩
  · simpa using (C6_insert_zone [] zoneEC).1 rfl
  · exact ((C6_insert_zone [(["example", "com"], zoneEC)] zoneEC2).2 zoneEC rfl).1

/-- DomainInfo from src/key.rs: the SOA primary name server and
responsible mailbox of a configured domain. -/
structure DomainInfo where
  mname : String
  rname : String
  deriving DecidableEq, Repr

/-- The config key mapping (src/key.rs Keys): KeyFile label to the map of
DomainName to DomainInfo. -/
abbrev KeysCfg := List (String × List (String × DomainInfo))

/-- The acme label prefix as character list. -/
def acmeLabel : List Char := "_acme-challenge.".data

/-- DomainName strip of src/key.rs lines 55-63: removes one leading
"_acme-challenge." when present, otherwise returns the name unchanged
(str strip with the same prefix, written over the character list so that
it evaluates by reduction). -/
def stripAcme (s : String) : String :=
  if acmeLabel.isPrefixOf s.data then ⟨s.data.drop acmeLabel.length⟩ else s

/-- validate_key_scope (src/service/middleware/tsig.rs lines 216-223): the
key name must map, in the config, to a domain set containing the displayed
qname after the acme strip. -/
def validateKeyScope (keys : KeysCfg) (keyName : String) (q : DnsName) : Bool :=
  match alookup keyName keys with
  | some d => (alookup (stripAcme (displayName q)) d).isSome
  | none => false

/-- The scope test in the words of claim C1 and spec P8: stripping one
leading "_acme-challenge." label must succeed and the stripped remainder
must be configured under the key.  Stated only for comparison with
validate_key_scope, which in addition accepts a qname that carries no such
label but is itself configured. -/
def scopeTestClaim (keys : KeysCfg) (keyName : String) (q : DnsName) : Bool :=
  if acmeLabel.isPrefixOf (displayName q).data then
    match alookup keyName keys with
    | some d =>
      (alookup (⟨(displayName q).data.drop acmeLabel.length⟩ : String) d).isSome
    | none => false
  else false

/-- A record of the authority section of an inbound message. -/
structure AuthRecord where
  owner : DnsName
  cls : DClass
  ttl : Nat
  rdata : RData
  deriving DecidableEq, Repr

/-- The parts of an inbound DNS message the service and the middleware
inspect.  The malformed flag models a message whose authority section
fails to re-parse record by record (the early question-mark returns of
handle_update_query). -/
structure Msg where
  opcode : Opcode
  qname : DnsName
  qtype : Rtype
  qclass : DClass
  authority : List AuthRecord
  malformed : Bool
  deriving DecidableEq, Repr

/-- Key of the working map of handle_update_query. -/
abbrev RKey := Rtype × Nat

/-- records.entry(key).or_default() followed by push or extend, over the
association-list rendering of the working HashMap. -/
def apush (m : List (RKey × List RData)) (k : RKey) (vs : List RData) :
    List (RKey × List RData) :=
  match alookup k m with
  | some old => (ainsert k (old ++ vs) m).1
  | none => m ++ [(k, vs)]

/-- First loop of handle_update_query (tsig.rs lines 233-253): collect the
authority records into the working map keyed by (rtype, ttl); any record
whose rdata is not TXT hits the unimplemented macro, i.e. panics (none). -/
def collectAuthorityFrom (acc : List (RKey × List RData)) :
    List AuthRecord → Option (List (RKey × List RData))
  | [] => some acc
  | r :: rest =>
    match r.rdata with
    | RData.txt s =>
      collectAuthorityFrom (apush acc (Rtype.txt, r.ttl) [RData.txt s]) rest
    | _ => none

/-- Models WritableZoneNode::update_rrset at the opened apex, as the
update path uses it: the apex rrset of the given type is replaced
wholesale by the new one. -/
def Zone.updateApexRrset (z : Zone) (rs : Rrset) : Zone :=
  ⟨z.apex, z.cls,
    z.records.filter
      (fun p => !(decide (p.1 = z.apex) && decide (p.2.rtype = rs.rtype)))
      ++ [(z.apex, rs)]⟩

/-- Outcome of handle_update_query: the new tree on success, a parse
error (postprocessing turns it into SERVFAIL), or a panic raised by the
unimplemented arm. -/
inductive UpdateResult
  | ok (t : ZoneTree)
  | parseErr
  | panics
  deriving DecidableEq, Repr

/-- handle_update_query (src/service/middleware/tsig.rs lines 225-297):
collect authority TXT data keyed by (rtype, ttl), extend each entry whose
rtype equals the question qtype with the walked rrsets at the qname, then
rewrite the found zone's apex rrsets from the map and commit.  When no
zone matches the qname exactly, nothing is written and the call still
succeeds.  The opcode is never consulted. -/
def handleUpdateQuery (t : ZoneTree) (m : Msg) : UpdateResult :=
  if m.malformed then UpdateResult.parseErr
  else
    match collectAuthorityFrom [] m.authority with
    | none => UpdateResult.panics
    | some recs0 =>
      let recs1 :=
        match findZone t m.qname with
        | some z =>
          z.records.foldl
            (fun (acc : List (RKey × List RData)) (p : DnsName × Rrset) =>
              if p.2.rtype = m.qtype ∧ p.1 = m.qname then
                apush acc (p.2.rtype, p.2.ttl) p.2.rdata
              else acc) recs0
        | none => recs0
      match findZone t m.qname with
      | some z =>
        UpdateResult.ok
          (ainsert m.qname
            (recs1.foldl
              (fun (zz : Zone) (kv : RKey × List RData) =>
                zz.updateApexRrset ⟨kv.1.1, kv.1.2, kv.2⟩) z)
            t).1
      | none => UpdateResult.ok t

/-- Result of ServerTransaction::request / ServerSequence::request from
the external domain tsig module, abstracted: no TSIG record present, a
transaction verified under a key name, or a verification failure (key
name and algorithm not in the KeyStore, bad MAC, time outside the window,
or bad original id). -/
inductive TsigVerify
  | noTsig
  | verified (keyName : String)
  | failed
  deriving DecidableEq, Repr

/-- What the TSIG middleware postprocessing does to a response item. -/
inductive PostOutcome
  | pass
  | signedOk
  | rcode (rc : Rcode)
  | panics
  deriving DecidableEq, Repr

/-- postprocess_non_axfr (src/service/middleware/tsig.rs lines 49-94):
no TSIG passes the response through; a verified transaction in scope runs
the update path and signs on success or yields SERVFAIL on error; out of
scope or failed verification yields REFUSED. -/
def postprocessNonAxfr (keys : KeysCfg) (tv : TsigVerify) (t : ZoneTree)
    (m : Msg) : PostOutcome × ZoneTree :=
  match tv with
  | TsigVerify.noTsig => (PostOutcome.pass, t)
  | TsigVerify.verified k =>
    if validateKeyScope keys k m.qname then
      match handleUpdateQuery t m with
      | UpdateResult.ok t2 => (PostOutcome.signedOk, t2)
      | UpdateResult.parseErr => (PostOutcome.rcode Rcode.servfail, t)
      | UpdateResult.panics => (PostOutcome.panics, t)
    else (PostOutcome.rcode Rcode.refused, t)
  | TsigVerify.failed => (PostOutcome.rcode Rcode.refused, t)

/-- postprocess_axfr (src/service/middleware/tsig.rs lines 96-141): same
branch structure as the non-AXFR path, with ServerSequence in place of
ServerTransaction. -/
def postprocessAxfr (keys : KeysCfg) (tv : TsigVerify) (t : ZoneTree)
    (m : Msg) : PostOutcome × ZoneTree :=
  match tv with
  | TsigVerify.noTsig => (PostOutcome.pass, t)
  | TsigVerify.verified k =>
    if validateKeyScope keys k m.qname then
      match handleUpdateQuery t m with
      | UpdateResult.ok t2 => (PostOutcome.signedOk, t2)
      | UpdateResult.parseErr => (PostOutcome.rcode Rcode.servfail, t)
      | UpdateResult.panics => (PostOutcome.panics, t)
    else (PostOutcome.rcode Rcode.refused, t)
  | TsigVerify.failed => (PostOutcome.rcode Rcode.refused, t)

/-- A TSIG key as held by the KeyStore: name and raw secret bytes; the
algorithm is the constant hmac-sha512 throughout the program. -/
structure TsigKey where
  name : String
  secret : List Nat
  deriving DecidableEq, Repr

/-- The KeyStore map of src/key.rs keyed by key name (the algorithm
component of the key is the constant Sha512 and is omitted). -/
abbrev KeyStoreM := List (String × TsigKey)

/-- The middleware dispatch (tsig.rs lines 143-168) threading the shared
state: AXFR questions go to the sequence path, everything else to the
transaction path.  The request path takes only read locks on the key
store, so it is returned unchanged. -/
def processRequest (keys : KeysCfg) (ks : KeyStoreM) (tv : TsigVerify)
    (t : ZoneTree) (m : Msg) : PostOutcome × ZoneTree × KeyStoreM :=
  if m.qtype = Rtype.axfr then
    ((postprocessAxfr keys tv t m).1, (postprocessAxfr keys tv t m).2, ks)
  else
    ((postprocessNonAxfr keys tv t m).1, (postprocessNonAxfr keys tv t m).2, ks)

/-- domain::zonetree::Answer as the program uses it: an rcode and the
answer-section content. -/
structure Answer where
  rcode : Rcode
  answers : List (DnsName × Rrset)
  deriving DecidableEq, Repr

/-- Models ReadableZone::query of the external domain crate as this
program drives it: an out-of-zone name gives Err (none); otherwise a
NOERROR answer holding the matching rrsets at the name, or an NXDOMAIN
skeleton when nothing matches. -/
def zoneQuery (z : Zone) (q : DnsName) (rt : Rtype) : Option Answer :=
  if decide (z.apex <:+ q) then
    match z.records.filter
        (fun p => decide (p.1 = q) && decide (p.2.rtype = rt)) with
    | [] => some ⟨Rcode.nxdomain, []⟩
    | l => some ⟨Rcode.noerror, l⟩
  else none

/-- handle_non_axfr (src/service/mod.rs lines 79-97): exact zone lookup,
query on success, NXDOMAIN skeleton otherwise; a pure read of the tree
(the query unwrap panics on an out-of-zone name, modelled none). -/
def handleNonAxfr (t : ZoneTree) (qname : DnsName) (qtype : Rtype) :
    Option Answer :=
  match findZone t qname with
  | some z => zoneQuery z qname qtype
  | none => some ⟨Rcode.nxdomain, []⟩

/-- handle_axfr (src/service/mod.rs lines 99-213): the stream of response
messages pushed to the unbounded sender.  A qclass equal to IN is
answered with a single NXDOMAIN; otherwise the zone is looked up (absent:
single NXDOMAIN), the apex SOA is queried (error: single SERVFAIL), and
the transfer is the SOA answer, one message per non-SOA rrset in walk
order, and the SOA answer again. -/
def handleAxfr (t : ZoneTree) (qname : DnsName) (qclass : DClass) :
    List Answer :=
  if qclass = DClass.cIN then [⟨Rcode.nxdomain, []⟩]
  else
    match findZone t qname with
    | none => [⟨Rcode.nxdomain, []⟩]
    | some z =>
      match zoneQuery z qname Rtype.soa with
      | none => [⟨Rcode.servfail, []⟩]
      | some soaAns =>
        [soaAns]
          ++ (z.records.filter (fun p => !decide (p.2.rtype = Rtype.soa))).map
              (fun p => ⟨Rcode.noerror, [p]⟩)
          ++ [soaAns]

/-- Example DomainInfo for example.com. -/
def infoEx : DomainInfo := ⟨"ns1.example.com", "admin.example.com"⟩

/-- Example config: key1 bound to example.com. -/
def keysEx : KeysCfg := [("key1", [("example.com", infoEx)])]

/-- The acme apex of example.com. -/
def acmeEC : DnsName := ["_acme-challenge", "example", "com"]

/-- The SOA rrset the reconciler seeds at the acme apex. -/
def soaEC : Rrset :=
  ⟨Rtype.soa, 3600,
    [RData.soa "ns1.example.com" "admin.example.com" 1 10800 3600 605800 3600]⟩

/-- The zone the reconciler builds for example.com. -/
def zoneAcmeEC : Zone := ⟨acmeEC, DClass.cIN, [(acmeEC, soaEC)]⟩

/-- A tree holding only the acme-challenge zone of example.com. -/
def treeEx : ZoneTree := [(acmeEC, zoneAcmeEC)]

/-- C2: evaluation of handle_axfr at the failing input: an AXFR for the
existing zone with qclass IN is answered by one single NXDOMAIN message,
not by the two-SOA transfer; the transfer is streamed exactly when the
qclass is not IN (here CH), the opposite of the claim. -/
theorem C2_axfr_qclass_inverted :
    handleAxfr treeEx acmeEC DClass.cIN = [⟨Rcode.nxdomain, []⟩] ∧
    handleAxfr treeEx acmeEC DClass.ch
      = [⟨Rcode.noerror, [(acmeEC, soaEC)]⟩,
         ⟨Rcode.noerror, [(acmeEC, soaEC)]⟩] := by
  constructor
  · rfl
  · decide

/-- C10: a request carrying no TSIG record leaves both the zone tree and
the key store unchanged: the middleware passes the response through on
either dispatch path, the update path is never entered, and the inner
handlers only read the tree. -/
theorem C10_no_tsig_no_mutation (keys : KeysCfg) (ks : KeyStoreM)
    (t : ZoneTree) (m : Msg) :
    processRequest keys ks TsigVerify.noTsig t m
      = (PostOutcome.pass, t, ks) := by
  unfold processRequest postprocessAxfr postprocessNonAxfr
  by_cases h : m.qtype = Rtype.axfr <;> simp [h]

/-- C3 counterexample: a message whose TSIG record fails verification
(unknown key, bad MAC, bad time, bad original id) is answered with rcode
REFUSED, not NOTAUTH as claimed: the middleware drops the tsig module's
prepared NOTAUTH answer and builds a fresh REFUSED one. -/
theorem C3_counterexample :
    (postprocessNonAxfr keysEx TsigVerify.failed treeEx
        ⟨Opcode.update, acmeEC, Rtype.soa, DClass.cIN, [], false⟩).1
      = PostOutcome.rcode Rcode.refused ∧
    Rcode.refused ≠ Rcode.notauth := by
  exact ⟨rfl, by decide⟩

/-- C3 amended: every TSIG verification failure on an inbound message is
answered with rcode REFUSED, on the non-AXFR and the AXFR postprocessing
paths alike, and the zone tree is left unchanged. -/
theorem C3_tsig_failure_refused (keys : KeysCfg) (t : ZoneTree) (m : Msg) :
    postprocessNonAxfr keys TsigVerify.failed t m
        = (PostOutcome.rcode Rcode.refused, t) ∧
    postprocessAxfr keys TsigVerify.failed t m
        = (PostOutcome.rcode Rcode.refused, t) :=
  ⟨rfl, rfl⟩

/-- Signed UPDATE for the bare name example.com with empty authority. -/
def msgBare : Msg :=
  ⟨Opcode.update, ["example", "com"], Rtype.soa, DClass.cIN, [], false⟩

/-- C1 counterexample: for qname example.com, which carries no leading
"_acme-challenge." label but is itself configured under key1, the scope
test as claimed (the strip must succeed) fails, yet the middleware
accepts the transaction: outcome signedOk, not REFUSED. -/
theorem C1_counterexample :
    scopeTestClaim keysEx "key1" ["example", "com"] = false ∧
    postprocessNonAxfr keysEx (TsigVerify.verified "key1") treeEx msgBare
      = (PostOutcome.signedOk, treeEx) := by
  exact ⟨by decide, by decide⟩

/-- C1 amended: under a verified key k, the update is applied and the
response signed exactly when validate_key_scope accepts k for the qname
(the displayed qname with one leading "_acme-challenge." label removed
when present, otherwise taken whole, is configured under k) and the
update handler succeeds; whenever the scope test fails the whole
transaction is answered REFUSED and no zone is modified. -/
theorem C1_scope (keys : KeysCfg) (k : String) (t : ZoneTree) (m : Msg) :
    (validateKeyScope keys k m.qname = false →
      postprocessNonAxfr keys (TsigVerify.verified k) t m
        = (PostOutcome.rcode Rcode.refused, t)) ∧
    ((postprocessNonAxfr keys (TsigVerify.verified k) t m).1
        = PostOutcome.signedOk →
      validateKeyScope keys k m.qname = true) ∧
    (validateKeyScope keys k m.qname = true →
      ∀ t2, handleUpdateQuery t m = UpdateResult.ok t2 →
        postprocessNonAxfr keys (TsigVerify.verified k) t m
          = (PostOutcome.signedOk, t2)) := by
  refine ⟨?_, ?_, ?_⟩
  · intro h
    simp [postprocessNonAxfr, h]
  · intro h
    cases hv : validateKeyScope keys k m.qname
    · rw [postprocessNonAxfr] at h
      simp [hv] at h
    · rfl
  · intro hv t2 h2
    simp [postprocessNonAxfr, hv, h2]

/-- Witness for C1_scope at concrete inputs: key2 is out of scope for the
acme qname and is refused; key1 is in scope and the empty-authority
update is applied (here leaving the tree equal). -/
theorem C1_scope_witness :
    postprocessNonAxfr keysEx (TsigVerify.verified "key2") treeEx
        ⟨Opcode.update, acmeEC, Rtype.soa, DClass.cIN, [], false⟩
      = (PostOutcome.rcode Rcode.refused, treeEx) ∧
    postprocessNonAxfr keysEx (TsigVerify.verified "key1") treeEx
        ⟨Opcode.update, acmeEC, Rtype.soa, DClass.cIN, [], false⟩
      = (PostOutcome.signedOk, treeEx) := by
  constructor
  · exact (C1_scope keysEx "key2" treeEx
      ⟨Opcode.update, acmeEC, Rtype.soa, DClass.cIN, [], false⟩).1 (by decide)
  · exact (C1_scope keysEx "key1" treeEx
      ⟨Opcode.update, acmeEC, Rtype.soa, DClass.cIN, [], false⟩).2.2
      (by decide) treeEx (by decide)

/-- A TSIG-signed plain query (opcode QUERY) whose authority section
carries one TXT record at the acme apex. -/
def msgQueryTxt : Msg :=
  ⟨Opcode.query, acmeEC, Rtype.txt, DClass.cIN,
    [⟨acmeEC, DClass.cIN, 60, RData.txt "proof-xyz"⟩], false⟩

/-- C7 counterexample: a TSIG-signed in-scope message whose opcode is
QUERY, not UPDATE, still drives the update path: the zone gains the TXT
rrset named in the authority section, so processing a signed non-UPDATE
message does not leave every zone unchanged. -/
theorem C7_counterexample :
    msgQueryTxt.opcode ≠ Opcode.update ∧
    (postprocessNonAxfr keysEx (TsigVerify.verified "key1") treeEx
        msgQueryTxt).2 ≠ treeEx ∧
    (postprocessNonAxfr keysEx (TsigVerify.verified "key1") treeEx
        msgQueryTxt).2
      = [(acmeEC, ⟨acmeEC, DClass.cIN,
          [(acmeEC, soaEC),
           (acmeEC, ⟨Rtype.txt, 60, [RData.txt "proof-xyz"]⟩)]⟩)] := by
  refine ⟨by decide, by decide, by decide⟩

/-- C7 amended: the middleware never inspects the opcode: the whole
postprocessing, and with it the update path, treats a message identically
under every opcode, so any TSIG-verified in-scope non-AXFR message drives
handle_update_query, UPDATE or not. -/
theorem C7_opcode_ignored (keys : KeysCfg) (tv : TsigVerify) (t : ZoneTree)
    (m : Msg) (o : Opcode) :
    postprocessNonAxfr keys tv t { m with opcode := o }
      = postprocessNonAxfr keys tv t m := by
  cases m
  cases tv <;> rfl

/-- A signed in-scope UPDATE whose authority holds one class-IN A record
at the acme apex. -/
def msgUpdA : Msg :=
  ⟨Opcode.update, acmeEC, Rtype.soa, DClass.cIN,
    [⟨acmeEC, DClass.cIN, 60, RData.addr 16909060⟩], false⟩

/-- C8: evaluation at the failing input: a signed in-scope UPDATE whose
authority holds a class-IN A record reaches the unimplemented arm of
handle_update_query: the task panics, so no response at all (in
particular no SERVFAIL) is produced; the tree is untouched since the
panic precedes the zone write. -/
theorem C8_non_txt_panics :
    handleUpdateQuery treeEx msgUpdA = UpdateResult.panics ∧
    postprocessNonAxfr keysEx (TsigVerify.verified "key1") treeEx msgUpdA
      = (PostOutcome.panics, treeEx) := by
  exact ⟨by decide, by decide⟩

/-- Error kinds of src/error.rs raised along the key-material and
reconcile paths. -/
inductive ErrK
  | tsigFileAlreadyExist
  | tsigFileNotFound
  | serdeYaml
  | domainZone (e : ZoneErr)
  deriving DecidableEq, Repr

/-- Lower-case hex digit as an ASCII byte (base16ct lower alphabet). -/
def hexChar (d : Nat) : Nat := if d < 10 then 48 + d else 87 + d

/-- base16ct lower encoding: each byte becomes two ASCII hex bytes. -/
def hexEncode (bs : List Nat) : List Nat :=
  bs.foldr (fun b acc => hexChar (b / 16) :: hexChar (b % 16) :: acc) []

/-- Value of one ASCII hex digit byte. -/
def hexDigitVal (c : Nat) : Option Nat :=
  if 48 ≤ c ∧ c ≤ 57 then some (c - 48)
  else if 97 ≤ c ∧ c ≤ 102 then some (c - 87)
  else none

/-- Decoder of the written key file, stated to express the round-trip the
claim asserts. -/
def hexDecode : List Nat → Option (List Nat)
  | [] => some []
  | [_] => none
  | c1 :: c2 :: rest =>
    match hexDigitVal c1, hexDigitVal c2, hexDecode rest with
    | some h, some l, some bs => some ((16 * h + l) :: bs)
    | _, _, _ => none

/-- generate_new_tsig (src/tsig.rs lines 25-60): errors when the file is
already present; otherwise draws HMAC_SHA512.len() = 64 random bytes,
writes their base16 lower encoding to the file, and returns the key whose
secret is the raw 64 bytes.  The rng argument models SystemRandom. -/
def generateNewTsig (file : Option (List Nat)) (rng : Nat → Nat)
    (name : String) : Except ErrK (TsigKey × List Nat) :=
  match file with
  | some _ => Except.error ErrK.tsigFileAlreadyExist
  | none =>
    Except.ok (⟨name, (List.range 64).map (fun i => rng i % 256)⟩,
      hexEncode ((List.range 64).map (fun i => rng i % 256)))

/-- load_tsig (src/tsig.rs lines 62-84): errors when the file is missing;
otherwise the raw file bytes, undecoded, become the key secret. -/
def loadTsig (file : Option (List Nat)) (name : String) :
    Except ErrK TsigKey :=
  match file with
  | none => Except.error ErrK.tsigFileNotFound
  | some content => Except.ok ⟨name, content⟩

/-- KeyStore::add_key (src/key.rs lines 210-221): generate, fall back to
load when the file already exists, insert under the key name; returns the
store and the backing file content afterwards. -/
def addKey (ks : KeyStoreM) (file : Option (List Nat)) (rng : Nat → Nat)
    (k : String) : Except ErrK (KeyStoreM × Option (List Nat)) :=
  match generateNewTsig file rng k with
  | Except.ok (key, written) => Except.ok ((ainsert k key ks).1, some written)
  | Except.error ErrK.tsigFileAlreadyExist =>
    match loadTsig file k with
    | Except.ok key => Except.ok ((ainsert k key ks).1, file)
    | Except.error e => Except.error e
  | Except.error e => Except.error e

/-- C4: evaluation at the failing input: with no backing file, add_key
generates the 64-byte secret (here all zeroes) but writes its base16 -
not base64 - encoding, and a later add_key that loads the existing file
takes the 128 hex characters themselves as the secret; the reloaded
secret therefore differs from the one first stored, even though the
written file does still hex-decode to it. -/
theorem C4_roundtrip_broken :
    addKey [] none (fun _ => 0) "key1"
      = Except.ok ([("key1", ⟨"key1", List.replicate 64 0⟩)],
          some (List.replicate 128 48)) ∧
    addKey [] (some (List.replicate 128 48)) (fun _ => 0) "key1"
      = Except.ok ([("key1", ⟨"key1", List.replicate 128 48⟩)],
          some (List.replicate 128 48)) ∧
    (List.replicate 128 48 : List Nat) ≠ List.replicate 64 0 ∧
    hexDecode (List.replicate 128 48) = some (List.replicate 64 0) := by
  refine ⟨by rfl, by rfl, by decide, by decide⟩

/-- The reconciler state: key store, backing key files by name, zones. -/
structure RState where
  ks : KeyStoreM
  fs : List (String × List Nat)
  zones : ZoneTree
  deriving DecidableEq, Repr

/-- add_key against the shared state (the file looked up under TSIG_PATH
by the key label, the written content stored back). -/
def addKeyFs (st : RState) (rng : Nat → Nat) (k : String) :
    Except (ErrK × RState) RState :=
  match addKey st.ks (alookup k st.fs) rng k with
  | Except.ok (ks2, some content) =>
    Except.ok ⟨ks2, (ainsert k content st.fs).1, st.zones⟩
  | Except.ok (ks2, none) => Except.ok ⟨ks2, st.fs, st.zones⟩
  | Except.error e => Except.error (e, st)

/-- KeyStore::remove_key (src/key.rs lines 203-208): evict from the map;
only when an entry was present is the backing file deleted (delete_tsig
tolerates a missing file). -/
def removeKeyFs (st : RState) (k : String) : RState :=
  match (aremove k st.ks).2 with
  | some _ => ⟨(aremove k st.ks).1, (aremove k st.fs).1, st.zones⟩
  | none => st

/-- Splitting a dotted textual name into labels (models the name parsing
behind StoredName::bytes_from_str as the reconciler uses it). -/
def splitLabelsAux (cur : List Char) : List Char → DnsName
  | [] => [⟨cur.reverse⟩]
  | c :: rest =>
    if c = '.' then (⟨cur.reverse⟩ : String) :: splitLabelsAux [] rest
    else splitLabelsAux (c :: cur) rest

/-- Textual name to label list. -/
def toName (s : String) : DnsName := splitLabelsAux [] s.data

/-- Zone construction from one configured (DomainName, DomainInfo)
(src/key.rs lines 75-114): apex "_acme-challenge." ++ name, class IN, one
SOA rrset at the apex with ttl one hour, serial Serial::now() (the now
argument), refresh 10800, retry 3600, expire 605800, minimum 3600. -/
def buildZone (now : Nat) (n : String) (i : DomainInfo) : Zone :=
  ⟨toName ("_acme-challenge." ++ n), DClass.cIN,
    [(toName ("_acme-challenge." ++ n),
      ⟨Rtype.soa, 3600, [RData.soa i.mname i.rname now 10800 3600 605800 3600]⟩)]⟩

/-- Keys::keys (src/key.rs lines 23-25): the KeyFile labels. -/
def cfgKeys (keys : KeysCfg) : List String := keys.map Prod.fst

/-- Keys::domains (src/key.rs lines 27-35): all configured
(DomainName, DomainInfo) pairs, flattened in iteration order. -/
def cfgDomains (keys : KeysCfg) : List (String × DomainInfo) :=
  keys.foldr (fun kv acc => kv.2 ++ acc) []

/-- try_for_each of add_key over the added key labels. -/
def addKeysAll (rng : Nat → Nat) :
    RState → List String → Except (ErrK × RState) RState
  | st, [] => Except.ok st
  | st, k :: rest =>
    match addKeyFs st rng k with
    | Except.ok st2 => addKeysAll rng st2 rest
    | Except.error e => Except.error e

/-- handle_keys_change (src/service/watcher.rs lines 87-110): deleted
keys (old not in new) are removed first, then added keys (new not in old)
are materialized. -/
def handleKeysChange (st : RState) (rng : Nat → Nat)
    (oldK newK : List String) : Except (ErrK × RState) RState :=
  addKeysAll rng
    ((oldK.filter (fun k => !newK.any (fun n => decide (n = k)))).foldl
      removeKeyFs st)
    (newK.filter (fun k => !oldK.any (fun o => decide (o = k))))

/-- try_for_each of remove_zone over deleted domains. -/
def removeDomainsAll (now : Nat) :
    RState → List (String × DomainInfo) → Except (ErrK × RState) RState
  | st, [] => Except.ok st
  | st, d :: rest =>
    match zonesRemove st.zones (buildZone now d.1 d.2).apex with
    | (z2, Except.ok _) => removeDomainsAll now ⟨st.ks, st.fs, z2⟩ rest
    | (_, Except.error e) => Except.error (ErrK.domainZone e, st)

/-- try_for_each of insert_zone over added domains. -/
def insertDomainsAll (now : Nat) :
    RState → List (String × DomainInfo) → Except (ErrK × RState) RState
  | st, [] => Except.ok st
  | st, d :: rest =>
    match zonesInsert st.zones (buildZone now d.1 d.2) with
    | (z2, Except.ok _) => insertDomainsAll now ⟨st.ks, st.fs, z2⟩ rest
    | (_, Except.error e) => Except.error (ErrK.domainZone e, st)

/-- try_for_each of remove-then-insert over the domains whose name occurs
in both configs (the code reinstalls every such zone, changed or not). -/
def reinsertDomainsAll (now : Nat) :
    RState → List (String × DomainInfo) → Except (ErrK × RState) RState
  | st, [] => Except.ok st
  | st, d :: rest =>
    match zonesRemove st.zones (buildZone now d.1 d.2).apex with
    | (z2, Except.ok _) =>
      match zonesInsert z2 (buildZone now d.1 d.2) with
      | (z3, Except.ok _) => reinsertDomainsAll now ⟨st.ks, st.fs, z3⟩ rest
      | (_, Except.error e) => Except.error (ErrK.domainZone e, ⟨st.ks, st.fs, z2⟩)
    | (_, Except.error e) => Except.error (ErrK.domainZone e, st)

/-- handle_domains_change (src/service/watcher.rs lines 112-143):
deletions (old pairs absent from new), then additions (new pairs absent
from old), then the remove-and-reinsert pass over names present in both. -/
def handleDomainsChange (now : Nat) (st : RState)
    (oldD newD : List (String × DomainInfo)) : Except (ErrK × RState) RState :=
  match removeDomainsAll now st
      (oldD.filter (fun d => !newD.any (fun n => decide (n = d)))) with
  | Except.error e => Except.error e
  | Except.ok st1 =>
    match insertDomainsAll now st1
        (newD.filter (fun d => !oldD.any (fun o => decide (o = d)))) with
    | Except.error e => Except.error e
    | Except.ok st2 =>
      reinsertDomainsAll now st2
        (newD.filter (fun d => oldD.any (fun o => decide (o.1 = d.1))))

/-- A watcher notification: the config file re-parsed to a new key
mapping, or failed to parse (serde_yaml error). -/
inductive CfgEvent
  | parsed (cfg : KeysCfg)
  | parseFail
  deriving DecidableEq, Repr

/-- handle_file_change (src/service/watcher.rs lines 65-85): re-parse
(a failure propagates at once, before any state is touched), then the key
diff, then the domain diff; returns the newly loaded mapping and state.
Errors carry the state reached when they arose. -/
def handleFileChange (keys : KeysCfg) (ev : CfgEvent) (st : RState)
    (rng : Nat → Nat) (now : Nat) :
    Except (ErrK × RState) (KeysCfg × RState) :=
  match ev with
  | CfgEvent.parseFail => Except.error (ErrK.serdeYaml, st)
  | CfgEvent.parsed newCfg =>
    match handleKeysChange st rng (cfgKeys keys) (cfgKeys newCfg) with
    | Except.error e => Except.error e
    | Except.ok st1 =>
      match handleDomainsChange now st1 (cfgDomains keys) (cfgDomains newCfg) with
      | Except.error e => Except.error e
      | Except.ok st2 => Except.ok (newCfg, st2)

/-- The steady-state loop of watch_lock (src/service/watcher.rs lines
30-35): each received event goes through handle_file_change; the
question-mark operator propagates the first failure out of the loop, and
main (src/main.rs lines 96-104) then logs it and exits the process with
code 1.  The result pairs the in-memory state at that moment with the
error, if any. -/
def watchLoop (rng : Nat → Nat) (now : Nat) :
    KeysCfg → RState → List CfgEvent → RState × Option ErrK
  | _, st, [] => (st, none)
  | keys, st, ev :: rest =>
    match handleFileChange keys ev st rng now with
    | Except.error (e, st2) => (st2, some e)
    | Except.ok (keys2, st2) => watchLoop rng now keys2 st2 rest

/-- The key store holding key1 with the all-zero secret. -/
def ksEx : KeyStoreM := [("key1", ⟨"key1", List.replicate 64 0⟩)]

/-- The key file backing key1 (hex of the all-zero secret). -/
def fsEx : List (String × List Nat) := [("key1", List.replicate 128 48)]

/-- Reconciler state matching keysEx after startup. -/
def stateEx : RState := ⟨ksEx, fsEx, treeEx⟩

/-- C5 counterexample: a parse failure makes the watch loop return with
the serde error: the state is retained, but the following event - which,
processed on its own, empties the state - is never handled, and main
exits the process; the claim that the loop keeps processing subsequent
events fails. -/
theorem C5_counterexample :
    watchLoop (fun _ => 0) 1 keysEx stateEx
        [CfgEvent.parseFail, CfgEvent.parsed []]
      = (stateEx, some ErrK.serdeYaml) ∧
    watchLoop (fun _ => 0) 1 keysEx stateEx [CfgEvent.parsed []]
      = (⟨[], [], []⟩, none) ∧
    (⟨[], [], []⟩ : RState) ≠ stateEx := by
  refine ⟨by decide, by decide, by decide⟩

/-- C5 amended: when re-parsing fails during a steady-state reconcile
event the prior in-memory state is indeed left unchanged and the error is
surfaced, but the reconcile loop does not keep going: handle_file_change
propagates the serde error out of the watch loop before any diffing, no
subsequent watcher event is processed, and main exits the process with
code 1. -/
theorem C5_parse_failure_stops_loop (rng : Nat → Nat) (now : Nat)
    (keys : KeysCfg) (st : RState) (rest : List CfgEvent) :
    watchLoop rng now keys st (CfgEvent.parseFail :: rest)
      = (st, some ErrK.serdeYaml) := rfl

end Dnsr
